import Mathlib

/-!
Scaffolding templates of `internal/artifacts/golang/templates`.

The Go package is a set of eight string constants.  Each constant is embedded
below as a Lean `String`, line by line, with the same name as in the source.
Braces are written `\x7b` and `\x7d`, tabs `\t`, line ends `\n`.

The renderer that fills the placeholders is not part of the package; it is
modelled from the specification (section 4.1) after the templates.
-/

namespace Templates

set_option maxRecDepth 100000

/-- VersionTxtFile holds the contents of the VERSION.txt -/
def VersionTxtFile : String :=
  "0.1.0"

/-- Makefile holds the contents of the Makefile -/
def Makefile : String :=
  "include docker.mk \n" ++
  "NAME:=\x7b\x7b .ApplicationName \x7d\x7d\n" ++
  "PKG:=\x7b\x7b .PackageName \x7d\x7d\n" ++
  "GOOSARCHES=darwin/amd64\n" ++
  "VERSION_FILE:=\x7b\x7b .VersionFileName \x7d\x7d\n" ++
  "\n" ++
  "VERSION=$(shell cat ./$(VERSION_FILE))\n" ++
  "GITCOMMIT:=$(shell git rev-parse --short HEAD)\n" ++
  "GITUNTRACKEDCHANGES:=$(shell git status --porcelain --untracked-files=no)\n" ++
  "ifneq ($(GITUNTRACKEDCHANGES),)\n" ++
  "\tGITCOMMIT := $(GITCOMMIT)-dirty\n" ++
  "endif\n" ++
  "\n" ++
  "# Sets the actual GITCOMMIT and VERSION values \n" ++
  "VERSION_INFO=-X $(PKG)/version.GITCOMMIT=$(GITCOMMIT) -X $(PKG)/version.VERSION=$(VERSION)\n" ++
  "\n" ++
  "# Set the linker flags\n" ++
  "GO_LDFLAGS=-ldflags \"-w $(VERSION_INFO)\"\n" ++
  "\n" ++
  "all: build fmt lint test vet\n" ++
  "\n" ++
  "# Builds the binary\n" ++
  ".PHONY: build\n" ++
  "build:\n" ++
  "\t@echo \"-> $@\"\n" ++
  "\tCGO_ENABLED=0 go build -i -installsuffix cgo $\x7bGO_LDFLAGS\x7d -o $(NAME) .\n" ++
  "\n" ++
  "# Gofmts all code (sans vendor folder) just in case not using automatic formatting\n" ++
  ".PHONY: fmt\n" ++
  "fmt: \n" ++
  "\t@echo \"-> $@\"\n" ++
  "\t@gofmt -s -l . | grep -v vendor | tee /dev/stderr\n" ++
  "\n" ++
  "# Runs golint\n" ++
  ".PHONY: lint\n" ++
  "lint:\n" ++
  "\t@echo \"-> $@\"\n" ++
  "\t@golint ./... | grep -v vendor | tee /dev/stderr\n" ++
  "\n" ++
  "# Runs all tests\n" ++
  ".PHONY: test\n" ++
  "test:\n" ++
  "\t@echo \"-> $@\"\n" ++
  "\t@go test -v $(shell go list ./... | grep -v vendor)\n" ++
  "\n" ++
  "# Runs govet\n" ++
  ".PHONY: vet\n" ++
  "vet:\n" ++
  "\t@echo \"-> $@\"\n" ++
  "\t@go vet $(shell go list ./... | grep -v vendor) | tee /dev/stderr\n" ++
  "\n" ++
  "# Bumps the version of the service\n" ++
  ".PHONY: bump-version\n" ++
  "bump-version:\n" ++
  "\t$(eval NEW_VERSION = $(shell echo $(VERSION) | awk -F. '\x7b$NF+=1; OFS=FS\x7d \x7b$1 = $1; printf \"%s\",$0\x7d'))\n" ++
  "\t@echo \"Bumping VERSION.txt from $(VERSION) to $(NEW_VERSION)\"\n" ++
  "\techo $(NEW_VERSION) > VERSION.txt\n" ++
  "\tgit commit -vsam \"Bump version to $(NEW_VERSION)\""

/-- Dockerfile holds the contents of the Dockerfile -/
def Dockerfile : String :=
  "FROM golang:1.13.5-alpine as builder\n" ++
  "\n" ++
  "RUN apk add --no-cache ca-certificates git make\n" ++
  "WORKDIR /src\n" ++
  "\n" ++
  "COPY go.mod .\n" ++
  "COPY go.sum .\n" ++
  "RUN go mod download\n" ++
  "\n" ++
  "COPY . .\n" ++
  "RUN make build\n" ++
  "\n" ++
  "FROM alpine:latest\n" ++
  "COPY --from=builder /etc/ssl/certs/ca-certificates.crt /etc/ssl/certs\n" ++
  "COPY --from=builder /src/\x7b\x7b .ApplicationName \x7d\x7d \x7b\x7b .ApplicationName \x7d\x7d\n" ++
  "ENTRYPOINT [ \"./\x7b\x7b .ApplicationName \x7d\x7d\" ]"

/-- VersionGo holds the contents of the version.go file -/
def VersionGo : String :=
  "package version\n" ++
  "\n" ++
  "// VERSION indicates the binary version\n" ++
  "var VERSION string\n" ++
  "\n" ++
  "// GITCOMMIT indicates the git hash binary was built off of\n" ++
  "var GITCOMMIT string"

/-- GoModFile holds the contents of the go.mod file. -/
def GoModFile : String :=
  "module \x7b\x7b .PackageName \x7d\x7d\n" ++
  "\n" ++
  "go 1.13\n"

/-- GoSumFile holds the contents of the go.sum file. -/
def GoSumFile : String :=
  ""

/-- MainGo holds the contents of the main.go file -/
def MainGo : String :=
  "package main\n" ++
  "\n" ++
  "import (\n" ++
  "\t\"fmt\"\n" ++
  "\t\"log\"\n" ++
  "\t\"net/http\"\n" ++
  "\t\"runtime\"\n" ++
  "\n" ++
  "\t\"\x7b\x7b .PackageName \x7d\x7d/version\"\n" ++
  ")\n" ++
  "\n" ++
  "func indexHandler(w http.ResponseWriter, r *http.Request) \x7b\n" ++
  "\tw.Header().Set(\"Content-Type\", \"application/json\")\n" ++
  "\tw.Write([]byte(\"Hello\\n\"))\n" ++
  "\x7d\n" ++
  "\n" ++
  "func healthHandler(w http.ResponseWriter, r *http.Request) \x7b\n" ++
  "\tw.WriteHeader(200)\n" ++
  "\x7d\n" ++
  "\n" ++
  "func main() \x7b\n" ++
  "\tport := \":8080\"\n" ++
  "\tfmt.Printf(\"running on : %s\\n\", port)\n" ++
  "\tfmt.Printf(\"version    : %s\\n\", version.VERSION)\n" ++
  "\tfmt.Printf(\"git hash   : %s\\n\", version.GITCOMMIT)\n" ++
  "\tfmt.Printf(\"go version : %s\\n\", runtime.Version())\n" ++
  "\tfmt.Printf(\"go compiler: %s\\n\", runtime.Compiler)\n" ++
  "\tfmt.Printf(\"platform   : %s/%s\\n\", runtime.GOOS, runtime.GOARCH)\n" ++
  "\n" ++
  "\thttp.HandleFunc(\"/\", indexHandler)\n" ++
  "\thttp.HandleFunc(\"/health\", healthHandler)\n" ++
  "\tlog.Fatal(http.ListenAndServe(port, nil))\n" ++
  "\x7d"

/-- GitIgnore holds the contents of the .gitignore file -/
def GitIgnore : String :=
  "# Binaries for programs and plugins\n" ++
  "*.exe\n" ++
  "*.exe~\n" ++
  "*.dll\n" ++
  "*.so\n" ++
  "*.dylib\n" ++
  "\n" ++
  "# Test binary, build with \"go test -c\"\n" ++
  "*.test\n" ++
  "\n" ++
  "# Output of the go coverage tool, specifically when used with LiteIDE\n" ++
  "*.out"
/-! ## Specification vocabulary: occurrences of a literal text -/

/-- Positions (counted from `i`) at which `tok` occurs in `s`. -/
def occurrencesFrom (tok : List Char) : Nat → List Char → List Nat
  | i, [] => if tok.isPrefixOf [] then [i] else []
  | i, c :: cs =>
    if tok.isPrefixOf (c :: cs) then i :: occurrencesFrom tok (i + 1) cs
    else occurrencesFrom tok (i + 1) cs

/-- Positions at which the literal `tok` occurs in the text `s`. -/
def occurrences (tok s : String) : List Nat :=
  occurrencesFrom tok.data 0 s.data

/-- Number of occurrences of the literal `tok` in the text `s`. -/
def countOcc (tok s : String) : Nat :=
  (occurrences tok s).length

/-- Whether the literal `tok` occurs somewhere in `s`. -/
def occursInL (tok : List Char) : List Char → Bool
  | [] => tok.isPrefixOf []
  | c :: cs => tok.isPrefixOf (c :: cs) || occursInL tok cs

/-- Whether the literal `tok` occurs somewhere in the text `s`. -/
def occursIn (tok s : String) : Bool :=
  occursInL tok.data s.data

/-- Whether the literal `tok` stands in `s` at position `i`. -/
def occursAt (tok s : String) (i : Nat) : Bool :=
  tok.data.isPrefixOf (s.data.drop i)

/-! ## The renderer -/

/-- Modelled from the spec: the placeholder token of the application name, as
section 4.1 writes it and the templates hold it. -/
def tokApplicationName : String := "\x7b\x7b .ApplicationName \x7d\x7d"

/-- Modelled from the spec: the placeholder token of the package name, as
section 4.1 writes it and the templates hold it. -/
def tokPackageName : String := "\x7b\x7b .PackageName \x7d\x7d"

/-- Modelled from the spec: the placeholder token of the version file name, as
section 4.1 writes it and the templates hold it. -/
def tokVersionFileName : String := "\x7b\x7b .VersionFileName \x7d\x7d"

/-- Modelled from the spec: the record `RenderConfig` of section 3, the values a
caller supplies for the three placeholders.  The package has no such type. -/
structure RenderConfig where
  ApplicationName : String
  PackageName : String
  VersionFileName : String
  deriving DecidableEq, Repr

/-- Modelled from the spec: the two error kinds of section 7.  The package has
no error type. -/
inductive RenderError where
  | UnknownTemplate
  | MissingField
  deriving DecidableEq, Repr

/-- Modelled from the spec: the `TemplateSet` of section 3, the fixed mapping
from the eight template names to the raw template texts.  The package holds
only the constants; the mapping is missing. -/
def TemplateSet : List (String × String) :=
  [("VersionTxtFile", VersionTxtFile),
   ("Makefile", Makefile),
   ("Dockerfile", Dockerfile),
   ("VersionGo", VersionGo),
   ("GoModFile", GoModFile),
   ("GoSumFile", GoSumFile),
   ("MainGo", MainGo),
   ("GitIgnore", GitIgnore)]

/-- Modelled from the spec: the eight fixed template names of section 6. -/
def templateNames : List String := TemplateSet.map Prod.fst

/-- Modelled from the spec: the token table of section 4.1, each placeholder
token with the config value that replaces it. -/
def bindings (cfg : RenderConfig) : List (String × String) :=
  [(tokApplicationName, cfg.ApplicationName),
   (tokPackageName, cfg.PackageName),
   (tokVersionFileName, cfg.VersionFileName)]

/-- Modelled from the spec: the lookup of the token table used by the
substitution of section 4.1, the first binding whose token stands at the head
of `s`. -/
def matchToken : List (String × String) → List Char → Option (String × String)
  | [], _ => none
  | (tok, val) :: bs, s =>
    if tok.data.isPrefixOf s then some (tok, val) else matchToken bs s

/-- Modelled from the spec: literal substitution (section 4.1), one pass over
the template from left to right.  Where a token stands its value is written
and the token is skipped (`skip` counts the token characters still to pass);
every other character is copied.  Values are not scanned again. -/
def substitute (bs : List (String × String)) : Nat → List Char → List Char
  | _, [] => []
  | skip + 1, _ :: cs => substitute bs skip cs
  | 0, c :: cs =>
    match matchToken bs (c :: cs) with
    | some (tok, val) => val.data ++ substitute bs (tok.data.length - 1) cs
    | none => c :: substitute bs 0 cs

/-- Modelled from the spec: the text of a template with the substitutions of
`cfg` applied and no other transformation. -/
def renderText (cfg : RenderConfig) (tmpl : String) : String :=
  ⟨substitute (bindings cfg) 0 tmpl.data⟩

/-- Modelled from the spec: replacement of every occurrence of the single
literal `tok` by `val`. -/
def replaceAll (tok val s : String) : String :=
  ⟨substitute [(tok, val)] 0 s.data⟩

/-- Modelled from the spec: a placeholder is referenced by a template and its
config value is empty (the `MissingField` condition of section 4.1). -/
def missingField (cfg : RenderConfig) (tmpl : String) : Bool :=
  (bindings cfg).any fun b => occursIn b.1 tmpl && b.2.isEmpty

/-- Modelled from the spec: the operation `Render(templateName, config)` of
section 4.1.  It fails with `UnknownTemplate` for a name outside the fixed set,
with `MissingField` when a referenced placeholder has an empty value, and
otherwise returns the template with the substitutions applied. -/
def Render (templateName : String) (cfg : RenderConfig) : Except RenderError String :=
  match TemplateSet.lookup templateName with
  | none => .error .UnknownTemplate
  | some tmpl =>
    if missingField cfg tmpl then .error .MissingField
    else .ok (renderText cfg tmpl)

/-! ## Pieces of the templates around the placeholder sites -/

/-- Whether no `\x7b\x7b` starts inside `s` and `s` does not end in `\x7b`: no
placeholder token can start in such a piece of text. -/
def noOpen : List Char → Bool
  | [] => true
  | [c] => c != '\x7b'
  | c :: d :: cs => !(c == '\x7b' && d == '\x7b') && noOpen (d :: cs)

/-- The Makefile from the end of the `VERSION_FILE:=` line to the end of the
text: the variables computed by the shell and all the rules. -/
def makefileBody : String := ⟨Makefile.data.drop 132⟩

/-- The Dockerfile up to the first placeholder. -/
def dockerfileHead : String :=
  "FROM golang:1.13.5-alpine as builder\n" ++
  "\n" ++
  "RUN apk add --no-cache ca-certificates git make\n" ++
  "WORKDIR /src\n" ++
  "\n" ++
  "COPY go.mod .\n" ++
  "COPY go.sum .\n" ++
  "RUN go mod download\n" ++
  "\n" ++
  "COPY . .\n" ++
  "RUN make build\n" ++
  "\n" ++
  "FROM alpine:latest\n" ++
  "COPY --from=builder /etc/ssl/certs/ca-certificates.crt /etc/ssl/certs\n" ++
  "COPY --from=builder /src/"

/-- The main.go text before the placeholder. -/
def mainGoHead : String :=
  "package main\n" ++
  "\n" ++
  "import (\n" ++
  "\t\"fmt\"\n" ++
  "\t\"log\"\n" ++
  "\t\"net/http\"\n" ++
  "\t\"runtime\"\n" ++
  "\n" ++
  "\t\""

/-- The main.go text after the placeholder. -/
def mainGoBody : String := ⟨MainGo.data.drop 81⟩

/-- The line of the bump-version rule that computes the new version. -/
def bumpVersionLine : String :=
  "\t$(eval NEW_VERSION = $(shell echo $(VERSION) | awk -F. " ++
  "'\x7b$NF+=1; OFS=FS\x7d \x7b$1 = $1; printf \"%s\",$0\x7d'))\n"

/-- Whether every token of the table starts with `\x7b\x7b`. -/
def opens (bs : List (String × String)) : Bool :=
  bs.all fun b => ['\x7b', '\x7b'].isPrefixOf b.1.data

/-- The template `tmpl`, known under `name`, holds no brace pair and every
rendering of it returns it unchanged. -/
def rendersUnchanged (name tmpl : String) : Prop :=
  occursIn "\x7b\x7b" tmpl = false ∧ occursIn "\x7d\x7d" tmpl = false ∧
  (∀ cfg : RenderConfig, renderText cfg tmpl = tmpl) ∧
  (∀ cfg : RenderConfig, Render name cfg = .ok tmpl)

/-- The three placeholder tokens. -/
def tokens : List String := [tokApplicationName, tokPackageName, tokVersionFileName]

/-- Whether the text holds neither `\x7b\x7b` nor `\x7d\x7d`. -/
def braceFree (s : String) : Bool :=
  !occursIn "\x7b\x7b" s && !occursIn "\x7d\x7d" s

/-- Whether the text starts with the character `c`. -/
def startsWith (c : Char) : List Char → Bool
  | [] => false
  | x :: _ => x == c

/-- Whether the text ends with the character `c`. -/
def endsWith (c : Char) : List Char → Bool
  | [] => false
  | [x] => x == c
  | _ :: y :: ys => endsWith c (y :: ys)

/-- A piece of template text that holds no pair `cc`, is not empty and neither
starts nor ends with `c`: next to any value it forms no new pair. -/
def guarded (c : Char) (s : List Char) : Bool :=
  !occursInL [c, c] s && !s.isEmpty && !startsWith c s && !endsWith c s

/-! ## Identifiers of the version package -/

/-- Whether `c` can stand in an identifier: a letter, a digit or `_`. -/
def isIdentChar (c : Char) : Bool :=
  c.isAlphanum || c == '_'

/-- The identifiers that follow the occurrences of `pre` in `s`, in order: after
each occurrence the longest run of identifier characters. -/
def identsAfterL (pre : List Char) : List Char → List (List Char)
  | [] => []
  | c :: cs =>
    if pre.isPrefixOf (c :: cs) then
      ((c :: cs).drop pre.length).takeWhile isIdentChar :: identsAfterL pre cs
    else identsAfterL pre cs

/-- The identifiers that follow the occurrences of the literal `pre` in the
text `s`. -/
def identsAfter (pre s : String) : List String :=
  (identsAfterL pre.data s.data).map String.mk

/-- The main.go text after the import block: the handlers and `main`. -/
def mainGoCode : String := ⟨mainGoBody.data.drop 12⟩

/-! ## The templates split at their placeholder sites -/

theorem Makefile_split :
    Makefile = "include docker.mk \nNAME:=" ++ tokApplicationName ++ "\nPKG:=" ++
      tokPackageName ++ "\nGOOSARCHES=darwin/amd64\nVERSION_FILE:=" ++
      tokVersionFileName ++ makefileBody := rfl

theorem Dockerfile_split :
    Dockerfile = dockerfileHead ++ tokApplicationName ++ " " ++ tokApplicationName ++
      "\nENTRYPOINT [ \"./" ++ tokApplicationName ++ "\" ]" := rfl

theorem GoModFile_split :
    GoModFile = "module " ++ tokPackageName ++ "\n\ngo 1.13\n" := rfl

theorem MainGo_split :
    MainGo = mainGoHead ++ tokPackageName ++ mainGoBody := rfl

/-! ## How the substitution runs -/

theorem substitute_skip (bs : List (String × String)) (s rest : List Char) :
    substitute bs s.length (s ++ rest) = substitute bs 0 rest := by
  induction s with
  | nil => rfl
  | cons c cs ih => simpa [substitute] using ih

theorem substitute_at_token (bs : List (String × String)) (tok val : String)
    (c : Char) (cs rest : List Char) (htok : tok.data = c :: cs)
    (hm : matchToken bs (tok.data ++ rest) = some (tok, val)) :
    substitute bs 0 (tok.data ++ rest) = val.data ++ substitute bs 0 rest := by
  have h := substitute_skip bs cs rest
  have hl : tok.data.length - 1 = cs.length := by simp [htok]
  rw [htok] at hm ⊢
  simp only [List.cons_append] at hm ⊢
  simp only [substitute, hm, List.append_eq, hl]
  rw [h]

theorem substitute_ApplicationName (cfg : RenderConfig) (rest : List Char) :
    substitute (bindings cfg) 0 (tokApplicationName.data ++ rest) =
      cfg.ApplicationName.data ++ substitute (bindings cfg) 0 rest :=
  substitute_at_token _ _ _ _ _ rest rfl (by
    simp [matchToken, bindings, tokApplicationName, tokPackageName, tokVersionFileName,
      List.isPrefixOf])

theorem substitute_PackageName (cfg : RenderConfig) (rest : List Char) :
    substitute (bindings cfg) 0 (tokPackageName.data ++ rest) =
      cfg.PackageName.data ++ substitute (bindings cfg) 0 rest :=
  substitute_at_token _ _ _ _ _ rest rfl (by
    simp [matchToken, bindings, tokApplicationName, tokPackageName, tokVersionFileName,
      List.isPrefixOf])

theorem substitute_VersionFileName (cfg : RenderConfig) (rest : List Char) :
    substitute (bindings cfg) 0 (tokVersionFileName.data ++ rest) =
      cfg.VersionFileName.data ++ substitute (bindings cfg) 0 rest :=
  substitute_at_token _ _ _ _ _ rest rfl (by
    simp [matchToken, bindings, tokApplicationName, tokPackageName, tokVersionFileName,
      List.isPrefixOf])

theorem substitute_single (tok val : String) (c : Char) (cs rest : List Char)
    (htok : tok.data = c :: cs) :
    substitute [(tok, val)] 0 (tok.data ++ rest) =
      val.data ++ substitute [(tok, val)] 0 rest :=
  substitute_at_token _ _ _ c cs rest htok (by
    have h : tok.data.isPrefixOf (tok.data ++ rest) = true := by
      simp [List.isPrefixOf_iff_prefix]
    simp [matchToken, h])

theorem matchToken_of_ne (bs : List (String × String)) (hbs : opens bs = true)
    (c : Char) (cs : List Char) (h : c ≠ '\x7b') : matchToken bs (c :: cs) = none := by
  induction bs with
  | nil => rfl
  | cons b bs ih =>
    obtain ⟨tok, val⟩ := b
    simp only [opens, List.all_cons, Bool.and_eq_true] at hbs
    have hp : tok.data.isPrefixOf (c :: cs) = false := by
      have h2 := hbs.1
      rcases htd : tok.data with _ | ⟨x, _ | ⟨y, r⟩⟩
      · simp [htd, List.isPrefixOf] at h2
      · simp [htd, List.isPrefixOf] at h2
      · simp only [htd, List.isPrefixOf, Bool.and_eq_true, beq_iff_eq] at h2
        have hx : (x == c) = false := by
          simp only [beq_eq_false_iff_ne, ne_eq]
          rw [← h2.1]
          exact fun e => h e.symm
        simp [List.isPrefixOf, hx]
    simp only [matchToken, hp, Bool.false_eq_true, if_false]
    exact ih hbs.2

theorem matchToken_of_ne2 (bs : List (String × String)) (hbs : opens bs = true)
    (c d : Char) (cs : List Char) (h : d ≠ '\x7b') :
    matchToken bs (c :: d :: cs) = none := by
  induction bs with
  | nil => rfl
  | cons b bs ih =>
    obtain ⟨tok, val⟩ := b
    simp only [opens, List.all_cons, Bool.and_eq_true] at hbs
    have hp : tok.data.isPrefixOf (c :: d :: cs) = false := by
      have h2 := hbs.1
      rcases htd : tok.data with _ | ⟨x, _ | ⟨y, r⟩⟩
      · simp [htd, List.isPrefixOf] at h2
      · simp [htd, List.isPrefixOf] at h2
      · simp only [htd, List.isPrefixOf, Bool.and_eq_true, beq_iff_eq] at h2
        have hy : (y == d) = false := by
          simp only [beq_eq_false_iff_ne, ne_eq]
          rw [← h2.2.1]
          exact fun e => h e.symm
        simp [List.isPrefixOf, hy]
    simp only [matchToken, hp, Bool.false_eq_true, if_false]
    exact ih hbs.2

theorem noOpen_tail (c : Char) (cs : List Char) (h : noOpen (c :: cs) = true) :
    noOpen cs = true := by
  cases cs with
  | nil => rfl
  | cons d ds =>
    simp [noOpen] at h
    exact h.2

theorem substitute_noOpen (bs : List (String × String)) (hbs : opens bs = true)
    (s rest : List Char) (h : noOpen s = true) :
    substitute bs 0 (s ++ rest) = s ++ substitute bs 0 rest := by
  induction s with
  | nil => rfl
  | cons c cs ih =>
    have hm : matchToken bs (c :: (cs ++ rest)) = none := by
      cases cs with
      | nil =>
        apply matchToken_of_ne bs hbs
        simpa [noOpen] using h
      | cons d ds =>
        by_cases hc : c = '\x7b'
        · apply matchToken_of_ne2 bs hbs
          have := h
          simp [noOpen, hc] at this
          exact this.1
        · exact matchToken_of_ne bs hbs c _ hc
    simp only [List.cons_append, substitute, hm, List.append_eq]
    rw [ih (noOpen_tail c cs h)]

theorem substitute_noOpen_all (bs : List (String × String)) (hbs : opens bs = true)
    (s : List Char) (h : noOpen s = true) : substitute bs 0 s = s := by
  have := substitute_noOpen bs hbs s [] h
  simpa [substitute] using this

theorem opens_bindings (cfg : RenderConfig) : opens (bindings cfg) = true := rfl

theorem renderText_of_noOpen (cfg : RenderConfig) (tmpl : String)
    (h : noOpen tmpl.data = true) : renderText cfg tmpl = tmpl := by
  apply String.ext
  exact substitute_noOpen_all _ (opens_bindings cfg) tmpl.data h

/-- A token other than the one replaced is copied unchanged (package name). -/
theorem substitute_copy_PackageName (v : String) (rest : List Char) :
    substitute [(tokApplicationName, v)] 0 (tokPackageName.data ++ rest) =
      tokPackageName.data ++ substitute [(tokApplicationName, v)] 0 rest := by
  simp [substitute, matchToken, tokApplicationName, tokPackageName, List.isPrefixOf]

/-- A token other than the one replaced is copied unchanged (version file). -/
theorem substitute_copy_VersionFileName (v : String) (rest : List Char) :
    substitute [(tokApplicationName, v)] 0 (tokVersionFileName.data ++ rest) =
      tokVersionFileName.data ++ substitute [(tokApplicationName, v)] 0 rest := by
  simp [substitute, matchToken, tokApplicationName, tokVersionFileName, List.isPrefixOf]

/-! ## The rendered text of the four templates with placeholders -/

theorem renderText_Makefile (cfg : RenderConfig) :
    renderText cfg Makefile =
      "include docker.mk \nNAME:=" ++ cfg.ApplicationName ++ "\nPKG:=" ++
      cfg.PackageName ++ "\nGOOSARCHES=darwin/amd64\nVERSION_FILE:=" ++
      cfg.VersionFileName ++ makefileBody := by
  have hb := opens_bindings cfg
  apply String.ext
  rw [Makefile_split]
  simp only [renderText, String.data_append, List.append_assoc]
  rw [substitute_noOpen _ hb, substitute_ApplicationName,
    substitute_noOpen _ hb, substitute_PackageName,
    substitute_noOpen _ hb, substitute_VersionFileName,
    substitute_noOpen_all _ hb]
  all_goals rfl

theorem renderText_Dockerfile (cfg : RenderConfig) :
    renderText cfg Dockerfile =
      dockerfileHead ++ cfg.ApplicationName ++ " " ++ cfg.ApplicationName ++
      "\nENTRYPOINT [ \"./" ++ cfg.ApplicationName ++ "\" ]" := by
  have hb := opens_bindings cfg
  apply String.ext
  rw [Dockerfile_split]
  simp only [renderText, String.data_append, List.append_assoc]
  rw [substitute_noOpen _ hb, substitute_ApplicationName,
    substitute_noOpen _ hb, substitute_ApplicationName,
    substitute_noOpen _ hb, substitute_ApplicationName,
    substitute_noOpen_all _ hb]
  all_goals rfl

theorem renderText_GoModFile (cfg : RenderConfig) :
    renderText cfg GoModFile = "module " ++ cfg.PackageName ++ "\n\ngo 1.13\n" := by
  have hb := opens_bindings cfg
  apply String.ext
  rw [GoModFile_split]
  simp only [renderText, String.data_append, List.append_assoc]
  rw [substitute_noOpen _ hb, substitute_PackageName, substitute_noOpen_all _ hb]
  all_goals rfl

theorem renderText_MainGo (cfg : RenderConfig) :
    renderText cfg MainGo = mainGoHead ++ cfg.PackageName ++ mainGoBody := by
  have hb := opens_bindings cfg
  apply String.ext
  rw [MainGo_split]
  simp only [renderText, String.data_append, List.append_assoc]
  rw [substitute_noOpen _ hb, substitute_PackageName, substitute_noOpen_all _ hb]
  all_goals rfl

/-! ## Replacement of a single token -/

theorem replaceAll_ApplicationName_Makefile (v : String) :
    replaceAll tokApplicationName v Makefile =
      "include docker.mk \nNAME:=" ++ v ++ "\nPKG:=" ++ tokPackageName ++
      "\nGOOSARCHES=darwin/amd64\nVERSION_FILE:=" ++ tokVersionFileName ++ makefileBody := by
  have hb : opens [(tokApplicationName, v)] = true := rfl
  apply String.ext
  rw [Makefile_split]
  simp only [replaceAll, String.data_append, List.append_assoc]
  rw [substitute_noOpen _ hb, substitute_single tokApplicationName v _ _ _ rfl,
    substitute_noOpen _ hb, substitute_copy_PackageName,
    substitute_noOpen _ hb, substitute_copy_VersionFileName,
    substitute_noOpen_all _ hb]
  all_goals rfl

theorem replaceAll_ApplicationName_Dockerfile (v : String) :
    replaceAll tokApplicationName v Dockerfile =
      dockerfileHead ++ v ++ " " ++ v ++ "\nENTRYPOINT [ \"./" ++ v ++ "\" ]" := by
  have hb : opens [(tokApplicationName, v)] = true := rfl
  apply String.ext
  rw [Dockerfile_split]
  simp only [replaceAll, String.data_append, List.append_assoc]
  rw [substitute_noOpen _ hb, substitute_single tokApplicationName v _ _ _ rfl,
    substitute_noOpen _ hb, substitute_single tokApplicationName v _ _ _ rfl,
    substitute_noOpen _ hb, substitute_single tokApplicationName v _ _ _ rfl,
    substitute_noOpen_all _ hb]
  all_goals rfl

theorem replaceAll_PackageName_GoModFile (p : String) :
    replaceAll tokPackageName p GoModFile = "module " ++ p ++ "\n\ngo 1.13\n" := by
  have hb : opens [(tokPackageName, p)] = true := rfl
  apply String.ext
  rw [GoModFile_split]
  simp only [replaceAll, String.data_append, List.append_assoc]
  rw [substitute_noOpen _ hb, substitute_single tokPackageName p _ _ _ rfl, substitute_noOpen_all _ hb]
  all_goals rfl

/-! ## The `Render` operation on each known template -/

theorem Render_of_lookup (name tmpl : String) (cfg : RenderConfig)
    (h : TemplateSet.lookup name = some tmpl) :
    Render name cfg =
      if missingField cfg tmpl then .error .MissingField else .ok (renderText cfg tmpl) := by
  simp only [Render, h]

theorem missingField_eq (cfg : RenderConfig) (tmpl : String) :
    missingField cfg tmpl =
      ((occursIn tokApplicationName tmpl && cfg.ApplicationName.isEmpty) ||
       (occursIn tokPackageName tmpl && cfg.PackageName.isEmpty) ||
       (occursIn tokVersionFileName tmpl && cfg.VersionFileName.isEmpty)) := by
  simp [missingField, bindings, Bool.or_assoc]

theorem isEmpty_eq_false_of_ne (s : String) (h : s ≠ "") : s.isEmpty = false := by
  cases hs : s.isEmpty with
  | false => rfl
  | true => exact absurd ((String.isEmpty_iff s).mp hs) h

/-! ## Brace pairs in a text put together from pieces -/

theorem endsWith_append (c : Char) (a b : List Char) (hb : b ≠ []) :
    endsWith c (a ++ b) = endsWith c b := by
  induction a with
  | nil => rfl
  | cons x xs ih =>
    cases hxs : xs ++ b with
    | nil => simp [hb] at hxs
    | cons y ys =>
      rw [List.cons_append, hxs, endsWith, ← hxs, ih]

theorem pair_free_append (c : Char) (a b : List Char)
    (ha : occursInL [c, c] a = false) (hb : occursInL [c, c] b = false)
    (hab : endsWith c a = false ∨ startsWith c b = false) :
    occursInL [c, c] (a ++ b) = false := by
  induction a with
  | nil => simpa using hb
  | cons x xs ih =>
    cases xs with
    | nil =>
      cases b with
      | nil => simpa using ha
      | cons y ys =>
        simp only [endsWith, startsWith, beq_eq_false_iff_ne, ne_eq] at hab
        simp only [List.cons_append, List.nil_append, occursInL, List.isPrefixOf,
          Bool.or_eq_false_iff, Bool.and_eq_false_iff, beq_eq_false_iff_ne, ne_eq] at hb ⊢
        refine ⟨?_, hb⟩
        rcases hab with h | h
        · exact Or.inl fun e => h e.symm
        · exact Or.inr (Or.inl fun e => h e.symm)
    | cons y ys =>
      have ha2 : occursInL [c, c] (y :: ys) = false := by
        simp only [occursInL, Bool.or_eq_false_iff] at ha
        simp only [occursInL, Bool.or_eq_false_iff]
        exact ha.2
      have hp : [c, c].isPrefixOf (x :: y :: ys) = false := by
        simp only [occursInL, Bool.or_eq_false_iff] at ha
        exact ha.1
      have hp2 : [c, c].isPrefixOf (x :: (y :: ys ++ b)) = false := by
        simp only [List.isPrefixOf, List.cons_append, Bool.and_true] at hp ⊢
        exact hp
      have hab2 : endsWith c (y :: ys) = false ∨ startsWith c b = false := by
        simpa [endsWith] using hab
      have := ih ha2 hab2
      simp only [List.cons_append, occursInL, Bool.or_eq_false_iff] at this ⊢
      exact ⟨hp2, this⟩

/-- One step of putting a rendered text together: a text that is free of the
pair and does not end in `c`, then a value free of the pair, then a guarded
piece of the template. -/
theorem pair_free_step (c : Char) (x v seg : List Char)
    (hx : occursInL [c, c] x = false ∧ endsWith c x = false)
    (hv : occursInL [c, c] v = false) (hseg : guarded c seg = true) :
    occursInL [c, c] (x ++ v ++ seg) = false ∧ endsWith c (x ++ v ++ seg) = false := by
  simp only [guarded, Bool.and_eq_true, Bool.not_eq_true'] at hseg
  obtain ⟨⟨⟨h1, h2⟩, h3⟩, h4⟩ := hseg
  have hne : seg ≠ [] := by
    intro e
    simp [e] at h2
  refine ⟨?_, ?_⟩
  · exact pair_free_append c _ _ (pair_free_append c _ _ hx.1 hv (Or.inl hx.2)) h1 (Or.inr h3)
  · rw [endsWith_append c _ _ hne]
    exact h4

/-- The last step: the piece that ends the text may itself end in `c`. -/
theorem pair_free_last (c : Char) (x v seg : List Char)
    (hx : occursInL [c, c] x = false ∧ endsWith c x = false)
    (hv : occursInL [c, c] v = false)
    (hseg : occursInL [c, c] seg = false ∧ startsWith c seg = false) :
    occursInL [c, c] (x ++ v ++ seg) = false :=
  pair_free_append c _ _ (pair_free_append c _ _ hx.1 hv (Or.inl hx.2)) hseg.1 (Or.inr hseg.2)

theorem braceFree_iff (s : String) :
    braceFree s = true ↔
      occursInL ['\x7b', '\x7b'] s.data = false ∧ occursInL ['\x7d', '\x7d'] s.data = false := by
  show (!occursInL ['\x7b', '\x7b'] s.data && !occursInL ['\x7d', '\x7d'] s.data) = true ↔ _
  simp

theorem pair_free_one_site (c : Char) (s0 s1 : String) (a : String)
    (h0 : occursInL [c, c] s0.data = false ∧ endsWith c s0.data = false)
    (h1 : occursInL [c, c] s1.data = false ∧ startsWith c s1.data = false)
    (ha : occursInL [c, c] a.data = false) :
    occursInL [c, c] (s0 ++ a ++ s1).data = false := by
  simp only [String.data_append]
  exact pair_free_last c _ _ _ h0 ha h1

theorem pair_free_three_sites (c : Char) (s0 s1 s2 s3 : String) (a p v : String)
    (h0 : occursInL [c, c] s0.data = false ∧ endsWith c s0.data = false)
    (h1 : guarded c s1.data = true) (h2 : guarded c s2.data = true)
    (h3 : occursInL [c, c] s3.data = false ∧ startsWith c s3.data = false)
    (ha : occursInL [c, c] a.data = false)
    (hp : occursInL [c, c] p.data = false) (hv : occursInL [c, c] v.data = false) :
    occursInL [c, c] (s0 ++ a ++ s1 ++ p ++ s2 ++ v ++ s3).data = false := by
  simp only [String.data_append]
  exact pair_free_last c _ _ _ (pair_free_step c _ _ _ (pair_free_step c _ _ _ h0 ha h1)
    hp h2) hv h3

theorem braceFree_renderText (cfg : RenderConfig)
    (ha : braceFree cfg.ApplicationName = true) (hp : braceFree cfg.PackageName = true)
    (hv : braceFree cfg.VersionFileName = true) (name tmpl : String)
    (he : (name, tmpl) ∈ TemplateSet) : braceFree (renderText cfg tmpl) = true := by
  rw [braceFree_iff] at ha hp hv
  simp only [TemplateSet, List.mem_cons, Prod.mk.injEq, List.mem_singleton,
    List.not_mem_nil, or_false] at he
  rcases he with ⟨-, rfl⟩ | ⟨-, rfl⟩ | ⟨-, rfl⟩ | ⟨-, rfl⟩ | ⟨-, rfl⟩ | ⟨-, rfl⟩ |
    ⟨-, rfl⟩ | ⟨-, rfl⟩
  · rw [renderText_of_noOpen cfg VersionTxtFile rfl]; rfl
  · rw [renderText_Makefile, braceFree_iff]
    exact ⟨pair_free_three_sites _ _ _ _ _ _ _ _ ⟨rfl, rfl⟩ rfl rfl ⟨rfl, rfl⟩ ha.1 hp.1 hv.1,
      pair_free_three_sites _ _ _ _ _ _ _ _ ⟨rfl, rfl⟩ rfl rfl ⟨rfl, rfl⟩ ha.2 hp.2 hv.2⟩
  · rw [renderText_Dockerfile, braceFree_iff]
    exact ⟨pair_free_three_sites _ _ _ _ _ _ _ _ ⟨rfl, rfl⟩ rfl rfl ⟨rfl, rfl⟩ ha.1 ha.1 ha.1,
      pair_free_three_sites _ _ _ _ _ _ _ _ ⟨rfl, rfl⟩ rfl rfl ⟨rfl, rfl⟩ ha.2 ha.2 ha.2⟩
  · rw [renderText_of_noOpen cfg VersionGo rfl]; rfl
  · rw [renderText_GoModFile, braceFree_iff]
    exact ⟨pair_free_one_site _ _ _ _ ⟨rfl, rfl⟩ ⟨rfl, rfl⟩ hp.1,
      pair_free_one_site _ _ _ _ ⟨rfl, rfl⟩ ⟨rfl, rfl⟩ hp.2⟩
  · rw [renderText_of_noOpen cfg GoSumFile rfl]; rfl
  · rw [renderText_MainGo, braceFree_iff]
    exact ⟨pair_free_one_site _ _ _ _ ⟨rfl, rfl⟩ ⟨rfl, rfl⟩ hp.1,
      pair_free_one_site _ _ _ _ ⟨rfl, rfl⟩ ⟨rfl, rfl⟩ hp.2⟩
  · rw [renderText_of_noOpen cfg GitIgnore rfl]; rfl

theorem lookup_of_mem (name tmpl : String) (he : (name, tmpl) ∈ TemplateSet) :
    TemplateSet.lookup name = some tmpl := by
  simp only [TemplateSet, List.mem_cons, Prod.mk.injEq, List.mem_singleton,
    List.not_mem_nil, or_false] at he
  rcases he with ⟨rfl, rfl⟩ | ⟨rfl, rfl⟩ | ⟨rfl, rfl⟩ | ⟨rfl, rfl⟩ | ⟨rfl, rfl⟩ |
    ⟨rfl, rfl⟩ | ⟨rfl, rfl⟩ | ⟨rfl, rfl⟩ <;> rfl

/-! ## Occurrences in a text with something put in front -/

theorem occursInL_append_left (tok a b : List Char) (h : occursInL tok b = true) :
    occursInL tok (a ++ b) = true := by
  induction a with
  | nil => simpa using h
  | cons x xs ih =>
    simp only [List.cons_append, occursInL, Bool.or_eq_true]
    exact Or.inr ih

theorem occursIn_append_left (tok a b : String) (h : occursIn tok b = true) :
    occursIn tok (a ++ b) = true := by
  simp only [occursIn, String.data_append]
  exact occursInL_append_left _ _ _ h

theorem render_Makefile (cfg : RenderConfig) :
    Render "Makefile" cfg =
      if cfg.ApplicationName.isEmpty || cfg.PackageName.isEmpty || cfg.VersionFileName.isEmpty
      then .error .MissingField else .ok (renderText cfg Makefile) := by
  rw [Render_of_lookup "Makefile" Makefile cfg rfl, missingField_eq]
  have h1 : occursIn tokApplicationName Makefile = true := by decide
  have h2 : occursIn tokPackageName Makefile = true := by decide
  have h3 : occursIn tokVersionFileName Makefile = true := by decide
  simp only [h1, h2, h3, Bool.true_and]

theorem occursInL_exists_drop (tok s : List Char) (h : occursInL tok s = true) :
    ∃ i, i ≤ s.length ∧ tok.isPrefixOf (s.drop i) = true := by
  induction s with
  | nil => exact ⟨0, Nat.le_refl _, by simpa [occursInL] using h⟩
  | cons c cs ih =>
    simp only [occursInL, Bool.or_eq_true] at h
    rcases h with h | h
    · exact ⟨0, Nat.zero_le _, by simpa using h⟩
    · obtain ⟨i, hi, hp⟩ := ih h
      exact ⟨i + 1, by simpa using hi, by simpa using hp⟩

theorem mem_occurrencesFrom (tok : List Char) (s : List Char) (k i : Nat)
    (hi : i ≤ s.length) (hp : tok.isPrefixOf (s.drop i) = true) :
    k + i ∈ occurrencesFrom tok k s := by
  induction s generalizing k i with
  | nil =>
    have h0 : i = 0 := by simpa using hi
    subst h0
    simp only [List.drop_nil] at hp
    simp [occurrencesFrom, hp]
  | cons c cs ih =>
    cases i with
    | zero =>
      simp only [List.drop_zero] at hp
      simp [occurrencesFrom, hp]
    | succ j =>
      have hj : j ≤ cs.length := by simpa using hi
      have hm := ih (k + 1) j hj (by simpa using hp)
      have he : k + (j + 1) = k + 1 + j := by omega
      rw [he]
      simp only [occurrencesFrom]
      split
      · exact List.mem_cons_of_mem _ hm
      · exact hm

/-- A value followed by a line end that is a prefix of `a`, a line end and a
rest without line end, where `a` has no line end either, is `a`. -/
theorem eq_of_line_prefix (v a r : List Char) (ha : '\n' ∉ a) (hr : '\n' ∉ r)
    (h : v ++ ['\n'] <+: a ++ '\n' :: r) : v = a := by
  induction a generalizing v with
  | nil =>
    cases v with
    | nil => rfl
    | cons x xs =>
      simp only [List.cons_append, List.nil_append, List.cons_prefix_cons] at h
      have hmem : '\n' ∈ r := h.2.subset (by simp)
      exact absurd hmem hr
  | cons y ys ih =>
    cases v with
    | nil =>
      simp only [List.nil_append, List.cons_append, List.cons_prefix_cons] at h
      exact absurd (by simp [← h.1]) ha
    | cons x xs =>
      simp only [List.cons_append, List.cons_prefix_cons] at h
      have hys : '\n' ∉ ys := fun hm => ha (List.mem_cons_of_mem _ hm)
      rw [h.1, ih xs hys h.2]

/-! ## The version package in main.go -/

theorem mainGoBody_split :
    mainGoBody.data = "/version".data ++ ("\"\n)\n".data ++ mainGoCode.data) := rfl

theorem render_MainGo (cfg : RenderConfig) :
    Render "MainGo" cfg =
      if cfg.PackageName.isEmpty then .error .MissingField
      else .ok (renderText cfg MainGo) := by
  rw [Render_of_lookup "MainGo" MainGo cfg rfl, missingField_eq]
  have h1 : occursIn tokApplicationName MainGo = false := by decide
  have h2 : occursIn tokPackageName MainGo = true := by decide
  have h3 : occursIn tokVersionFileName MainGo = false := by decide
  simp only [h1, h2, h3, Bool.true_and, Bool.false_and, Bool.false_or, Bool.or_false]

/-! ## The claims -/

/-- C1: replacing every occurrence of the token of the package name in the
GoModFile template by `example.com/app` gives exactly
`module example.com/app`, an empty line, `go 1.13` and one line end; for every
package name `p` the replacement, and the substitution of any config with that
package name, gives `module p`, the empty line and `go 1.13`.  The `Render`
operation returns that text whenever `p` is not empty, the one case in which it
reports `MissingField` instead. -/
theorem C1_goModFile_rendered :
    replaceAll tokPackageName "example.com/app" GoModFile
      = "module example.com/app\n\ngo 1.13\n" ∧
    (∀ p : String, replaceAll tokPackageName p GoModFile
      = "module " ++ p ++ "\n\ngo 1.13\n") ∧
    (∀ cfg : RenderConfig, renderText cfg GoModFile
      = "module " ++ cfg.PackageName ++ "\n\ngo 1.13\n") ∧
    (∀ cfg : RenderConfig, Render "GoModFile" cfg
      = if cfg.PackageName.isEmpty then .error .MissingField
        else .ok ("module " ++ cfg.PackageName ++ "\n\ngo 1.13\n")) ∧
    Render "GoModFile" ⟨"", "example.com/app", ""⟩
      = .ok "module example.com/app\n\ngo 1.13\n" := by
  refine ⟨replaceAll_PackageName_GoModFile _, replaceAll_PackageName_GoModFile,
    renderText_GoModFile, ?_, rfl⟩
  intro cfg
  rw [Render_of_lookup "GoModFile" GoModFile cfg rfl, missingField_eq, renderText_GoModFile]
  have h1 : occursIn tokApplicationName GoModFile = false := rfl
  have h2 : occursIn tokPackageName GoModFile = true := rfl
  have h3 : occursIn tokVersionFileName GoModFile = false := rfl
  simp [h1, h2, h3]

/-- C2, as the code has it: the Dockerfile template holds the token of the
application name at exactly three sites (source and target of the last `COPY`
line and the `ENTRYPOINT` line), and rendering with the application name `svc`
writes `svc` at exactly those three sites, whatever the other two values. -/
theorem C2_dockerfile_three_sites :
    occurrences tokApplicationName Dockerfile = [288, 311, 350] ∧
    countOcc tokApplicationName Dockerfile = 3 ∧
    (∀ p v : String, Render "Dockerfile" ⟨"svc", p, v⟩
      = .ok (dockerfileHead ++ "svc svc\nENTRYPOINT [ \"./svc\" ]")) ∧
    occurrences "svc" (dockerfileHead ++ "svc svc\nENTRYPOINT [ \"./svc\" ]")
      = [288, 311 - 19, 350 - 38] ∧
    tokApplicationName.length - "svc".length = 19 := by
  refine ⟨by decide, by decide, ?_, by decide, by decide⟩
  intro p v
  rw [Render_of_lookup "Dockerfile" Dockerfile _ rfl, missingField_eq, renderText_Dockerfile]
  have h1 : occursIn tokApplicationName Dockerfile = true := rfl
  have h2 : occursIn tokPackageName Dockerfile = false := rfl
  have h3 : occursIn tokVersionFileName Dockerfile = false := rfl
  have h4 : ("svc" : String).isEmpty = false := rfl
  simp only [h1, h2, h3, h4]
  rfl

/-- C2 as stated fails: the Dockerfile template does not hold the token of the
application name exactly twice, and the text rendered for `svc` does not hold
`svc` exactly twice. -/
theorem C2_dockerfile_two_sites_refuted :
    ¬ (countOcc tokApplicationName Dockerfile = 2) ∧
    Render "Dockerfile" ⟨"svc", "example.com/svc", "VERSION.txt"⟩
      = .ok (dockerfileHead ++ "svc svc\nENTRYPOINT [ \"./svc\" ]") ∧
    ¬ (countOcc "svc" (dockerfileHead ++ "svc svc\nENTRYPOINT [ \"./svc\" ]") = 2) := by
  refine ⟨by decide, by rfl, by decide⟩

/-- C3: of the eight templates exactly Makefile and Dockerfile hold the token
of the application name.  Replacing every occurrence of it by `foo` leaves no
occurrence of the token and puts `foo` at each site: the Makefile line becomes
`NAME:=foo`, the Dockerfile lines become `COPY --from=builder /src/foo foo` and
`ENTRYPOINT [ "./foo" ]`, and nothing else changes. -/
theorem C3_applicationName_foo :
    (TemplateSet.filter fun e => occursIn tokApplicationName e.2).map Prod.fst
      = ["Makefile", "Dockerfile"] ∧
    replaceAll tokApplicationName "foo" Makefile
      = "include docker.mk \nNAME:=foo\nPKG:=" ++ tokPackageName ++
        "\nGOOSARCHES=darwin/amd64\nVERSION_FILE:=" ++ tokVersionFileName ++ makefileBody ∧
    countOcc tokApplicationName (replaceAll tokApplicationName "foo" Makefile) = 0 ∧
    occurrences tokApplicationName Makefile = [25] ∧
    occursAt "foo" (replaceAll tokApplicationName "foo" Makefile) 25 = true ∧
    occursIn "\nNAME:=foo\n" (replaceAll tokApplicationName "foo" Makefile) = true ∧
    replaceAll tokApplicationName "foo" Dockerfile
      = dockerfileHead ++ "foo" ++ " " ++ "foo" ++ "\nENTRYPOINT [ \"./" ++ "foo" ++ "\" ]" ∧
    countOcc tokApplicationName (replaceAll tokApplicationName "foo" Dockerfile) = 0 ∧
    occurrences tokApplicationName Dockerfile = [288, 311, 350] ∧
    occurrences "foo" (replaceAll tokApplicationName "foo" Dockerfile)
      = [288, 311 - 19, 350 - 38] ∧
    occursIn "\nCOPY --from=builder /src/foo foo\nENTRYPOINT [ \"./foo\" ]"
      (replaceAll tokApplicationName "foo" Dockerfile) = true := by
  refine ⟨by decide, replaceAll_ApplicationName_Makefile "foo", by decide, by decide,
    by decide, by decide, replaceAll_ApplicationName_Dockerfile "foo", by decide, by decide,
    by decide, by decide⟩

/-- C4: the GoSumFile template is the empty text, and rendering it gives the
empty text for every config, also one whose values are empty or are themselves
placeholder tokens. -/
theorem C4_goSumFile_empty :
    GoSumFile = "" ∧
    (∀ cfg : RenderConfig, renderText cfg GoSumFile = "") ∧
    (∀ cfg : RenderConfig, Render "GoSumFile" cfg = .ok "") ∧
    Render "GoSumFile" ⟨"", "", ""⟩ = .ok "" ∧
    Render "GoSumFile" ⟨tokApplicationName, tokPackageName, tokVersionFileName⟩ = .ok "" := by
  refine ⟨rfl, fun _ => rfl, fun _ => rfl, rfl, rfl⟩

/-- C5: the four templates without placeholders (VersionTxtFile, VersionGo,
GoSumFile, GitIgnore) hold neither `\x7b\x7b` nor `\x7d\x7d`, and for every
config rendering each of them returns the template text unchanged; rendering
VersionTxtFile always gives exactly `0.1.0`, with no line end after it. -/
theorem C5_plain_templates_unchanged :
    rendersUnchanged "VersionTxtFile" VersionTxtFile ∧
    rendersUnchanged "VersionGo" VersionGo ∧
    rendersUnchanged "GoSumFile" GoSumFile ∧
    rendersUnchanged "GitIgnore" GitIgnore ∧
    VersionTxtFile = "0.1.0" ∧
    (∀ cfg : RenderConfig, Render "VersionTxtFile" cfg = .ok "0.1.0") ∧
    occursIn "\n" VersionTxtFile = false := by
  have key : ∀ name tmpl : String, TemplateSet.lookup name = some tmpl →
      occursIn "\x7b\x7b" tmpl = false → occursIn "\x7d\x7d" tmpl = false →
      occursIn tokApplicationName tmpl = false → occursIn tokPackageName tmpl = false →
      occursIn tokVersionFileName tmpl = false → noOpen tmpl.data = true →
      rendersUnchanged name tmpl := by
    intro name tmpl hl ho hc h1 h2 h3 hn
    refine ⟨ho, hc, fun cfg => renderText_of_noOpen cfg tmpl hn, fun cfg => ?_⟩
    rw [Render_of_lookup name tmpl cfg hl, missingField_eq, h1, h2, h3,
      renderText_of_noOpen cfg tmpl hn]
    rfl
  have hv := key "VersionTxtFile" VersionTxtFile rfl rfl rfl rfl rfl rfl rfl
  exact ⟨hv, key "VersionGo" VersionGo rfl rfl rfl rfl rfl rfl rfl,
    key "GoSumFile" GoSumFile rfl rfl rfl rfl rfl rfl rfl,
    key "GitIgnore" GitIgnore rfl rfl rfl rfl rfl rfl rfl,
    rfl, hv.2.2.2, rfl⟩

/-- C6: the Makefile template holds each of the three tokens exactly once, on
the `NAME:=`, `PKG:=` and `VERSION_FILE:=` lines; GoModFile and MainGo each
hold the token of the package name exactly once and neither of the other two;
Dockerfile holds neither the token of the package name nor that of the version
file name. -/
theorem C6_placeholder_sets :
    countOcc tokApplicationName Makefile = 1 ∧
    countOcc tokPackageName Makefile = 1 ∧
    countOcc tokVersionFileName Makefile = 1 ∧
    occursIn ("\nNAME:=" ++ tokApplicationName ++ "\n") Makefile = true ∧
    occursIn ("\nPKG:=" ++ tokPackageName ++ "\n") Makefile = true ∧
    occursIn ("\nVERSION_FILE:=" ++ tokVersionFileName ++ "\n") Makefile = true ∧
    countOcc tokPackageName GoModFile = 1 ∧
    countOcc tokApplicationName GoModFile = 0 ∧
    countOcc tokVersionFileName GoModFile = 0 ∧
    countOcc tokPackageName MainGo = 1 ∧
    countOcc tokApplicationName MainGo = 0 ∧
    countOcc tokVersionFileName MainGo = 0 ∧
    countOcc tokPackageName Dockerfile = 0 ∧
    countOcc tokVersionFileName Dockerfile = 0 := by
  refine ⟨by decide, by decide, by decide, by decide, by decide, by decide, by decide,
    by decide, by decide, by decide, by decide, by decide, by decide, by decide⟩

/-- C7: in each of the eight templates every occurrence of `\x7b\x7b` is the
start of exactly one of the three placeholder tokens and every occurrence of
`\x7d\x7d` is the end of one of them.  So when the three values hold neither
`\x7b\x7b` nor `\x7d\x7d`, the text rendered from any of the eight templates
holds neither, and `Render` returns that text unless it reports
`MissingField`. -/
theorem C7_tokens_cover_braces :
    (∀ e ∈ TemplateSet, ∀ i ∈ occurrences "\x7b\x7b" e.2,
      (tokens.filter fun t => occursAt t e.2 i).length = 1) ∧
    (∀ e ∈ TemplateSet, ∀ i ∈ occurrences "\x7d\x7d" e.2,
      ∃ t ∈ tokens, t.length ≤ i + 2 ∧ occursAt t e.2 (i + 2 - t.length) = true) ∧
    (∀ cfg : RenderConfig, braceFree cfg.ApplicationName = true →
      braceFree cfg.PackageName = true → braceFree cfg.VersionFileName = true →
      ∀ e ∈ TemplateSet,
        braceFree (renderText cfg e.2) = true ∧
        Render e.1 cfg = (if missingField cfg e.2 then .error .MissingField
          else .ok (renderText cfg e.2))) := by
  refine ⟨by decide, by decide, ?_⟩
  intro cfg ha hp hv e he
  refine ⟨braceFree_renderText cfg ha hp hv e.1 e.2 he, ?_⟩
  exact Render_of_lookup e.1 e.2 cfg (lookup_of_mem e.1 e.2 he)

/-- C7 at the config `svc`, `example.com/svc`, `VERSION.txt`: the values hold no
brace pair, and the rendered Makefile holds none and is what `Render` returns. -/
theorem C7_tokens_cover_braces_witness :
    braceFree "svc" = true ∧ braceFree "example.com/svc" = true ∧
    braceFree "VERSION.txt" = true ∧
    braceFree (renderText ⟨"svc", "example.com/svc", "VERSION.txt"⟩ Makefile) = true ∧
    Render "Makefile" ⟨"svc", "example.com/svc", "VERSION.txt"⟩
      = .ok (renderText ⟨"svc", "example.com/svc", "VERSION.txt"⟩ Makefile) := by
  have h := C7_tokens_cover_braces.2.2 ⟨"svc", "example.com/svc", "VERSION.txt"⟩
    (by decide) (by decide) (by decide) ("Makefile", Makefile) (by simp [TemplateSet])
  refine ⟨by decide, by decide, by decide, h.1, ?_⟩
  rw [h.2]
  rfl

/-- C8: the fixed set has the eight names VersionTxtFile, Makefile, Dockerfile,
VersionGo, GoModFile, GoSumFile, MainGo and GitIgnore.  Rendering with a name
outside it fails with `UnknownTemplate`, so yields no text; rendering with one
of the eight names never fails with `UnknownTemplate`. -/
theorem C8_unknown_template :
    templateNames = ["VersionTxtFile", "Makefile", "Dockerfile", "VersionGo",
      "GoModFile", "GoSumFile", "MainGo", "GitIgnore"] ∧
    (∀ (name : String) (cfg : RenderConfig), name ∉ templateNames →
      Render name cfg = .error .UnknownTemplate) ∧
    (∀ (name : String) (cfg : RenderConfig), name ∈ templateNames →
      Render name cfg ≠ .error .UnknownTemplate) := by
  refine ⟨rfl, ?_, ?_⟩
  · intro name cfg h
    have hl : TemplateSet.lookup name = none := by
      rw [List.lookup_eq_none_iff]
      intro e he
      simp only [bne_iff_ne, ne_eq]
      intro hk
      apply h
      rw [hk]
      exact List.mem_map_of_mem Prod.fst he
    simp only [Render, hl]
  · intro name cfg h
    obtain ⟨e, he, rfl⟩ := List.mem_map.mp h
    rw [Render_of_lookup e.1 e.2 cfg (lookup_of_mem e.1 e.2 he)]
    split <;> simp

/-- C8 at the name `README`, which is outside the fixed set, and at the name
`Makefile`, which is in it. -/
theorem C8_unknown_template_witness :
    "README" ∉ templateNames ∧
    Render "README" ⟨"svc", "example.com/svc", "VERSION.txt"⟩ = .error .UnknownTemplate ∧
    "Makefile" ∈ templateNames ∧
    Render "Makefile" ⟨"svc", "example.com/svc", "VERSION.txt"⟩ ≠ .error .UnknownTemplate :=
  ⟨by decide, C8_unknown_template.2.1 "README" _ (by decide), by decide,
    C8_unknown_template.2.2 "Makefile" _ (by decide)⟩

/-- C9: the Makefile template holds `$NF` exactly once, not written `$$NF`,
inside the `$(shell echo $(VERSION) | awk ...)` call of the first line of the
bump-version rule.  For every config the rendered Makefile is the three
placeholder lines at the top with the values written in, followed by the rest
of the template unchanged, so it holds that whole line byte for byte; `Render`
returns this text whenever the three values are not empty. -/
theorem C9_bump_version_line_kept :
    countOcc "$NF" Makefile = 1 ∧
    occurrences "$NF" Makefile = [1286 + 58] ∧
    occurrences bumpVersionLine Makefile = [1286] ∧
    occurrences "$NF" bumpVersionLine = [58] ∧
    occursIn "$$NF" Makefile = false ∧
    occursIn ("$(shell echo $(VERSION) | awk -F. " ++
      "'\x7b$NF+=1; OFS=FS\x7d \x7b$1 = $1; printf \"%s\",$0\x7d')") bumpVersionLine = true ∧
    occursIn ("\nbump-version:\n" ++ bumpVersionLine) makefileBody = true ∧
    (∀ cfg : RenderConfig,
      renderText cfg Makefile =
        "include docker.mk \nNAME:=" ++ cfg.ApplicationName ++ "\nPKG:=" ++
        cfg.PackageName ++ "\nGOOSARCHES=darwin/amd64\nVERSION_FILE:=" ++
        cfg.VersionFileName ++ makefileBody ∧
      occursIn ("\nbump-version:\n" ++ bumpVersionLine) (renderText cfg Makefile) = true ∧
      Render "Makefile" cfg =
        if cfg.ApplicationName.isEmpty || cfg.PackageName.isEmpty ||
          cfg.VersionFileName.isEmpty
        then .error .MissingField else .ok (renderText cfg Makefile)) := by
  have hb : occursIn ("\nbump-version:\n" ++ bumpVersionLine) makefileBody = true := by decide
  refine ⟨by decide, by decide, by decide, by decide, by decide, by decide, hb, ?_⟩
  intro cfg
  refine ⟨renderText_Makefile cfg, ?_, render_Makefile cfg⟩
  rw [renderText_Makefile]
  exact occursIn_append_left _ _ _ hb

/-- C10: for every version file name `v` the rendered Makefile reads the
version from `v`: it holds the line `VERSION_FILE:=v`, followed by the rest of
the template, which starts with the line `VERSION=$(shell cat ./$(VERSION_FILE))`.
That rest is the same for every config and holds the line
`echo $(NEW_VERSION) > VERSION.txt` of the bump-version rule, so the rendered
text holds it whatever `v` is; the rule writes to the file `v` exactly when `v`
is `VERSION.txt`. -/
theorem C10_version_file_partly_templated :
    (∀ cfg : RenderConfig,
      renderText cfg Makefile =
        "include docker.mk \nNAME:=" ++ cfg.ApplicationName ++ "\nPKG:=" ++
        cfg.PackageName ++ "\nGOOSARCHES=darwin/amd64\nVERSION_FILE:=" ++
        cfg.VersionFileName ++ makefileBody ∧
      occursIn "\n\techo $(NEW_VERSION) > VERSION.txt\n" (renderText cfg Makefile) = true) ∧
    occursAt "\n\nVERSION=$(shell cat ./$(VERSION_FILE))\n" makefileBody 0 = true ∧
    countOcc tokVersionFileName makefileBody = 0 ∧
    countOcc "\n\techo $(NEW_VERSION) > " makefileBody = 1 ∧
    occursIn "\nbump-version:\n" makefileBody = true ∧
    (∀ v : String,
      occursIn ("\n\techo $(NEW_VERSION) > " ++ v ++ "\n") makefileBody = true ↔
        v = "VERSION.txt") := by
  have hw : occursIn "\n\techo $(NEW_VERSION) > VERSION.txt\n" makefileBody = true := by
    decide
  refine ⟨fun cfg => ⟨renderText_Makefile cfg, ?_⟩, by decide, by decide, by decide,
    by decide, fun v => ⟨fun h => ?_, fun h => ?_⟩⟩
  · rw [renderText_Makefile]
    exact occursIn_append_left _ _ _ hw
  · obtain ⟨i, hi, hp⟩ := occursInL_exists_drop _ _ h
    simp only [String.data_append, List.append_assoc, List.isPrefixOf_iff_prefix] at hp
    have hP : "\n\techo $(NEW_VERSION) > ".data.isPrefixOf (makefileBody.data.drop i) = true := by
      rw [List.isPrefixOf_iff_prefix]
      exact (List.prefix_append _ _).trans hp
    have hm := mem_occurrencesFrom _ _ 0 i hi hP
    have hocc : occurrencesFrom "\n\techo $(NEW_VERSION) > ".data 0 makefileBody.data
        = [1319] := by decide
    rw [hocc] at hm
    have hi2 : i = 1319 := by simpa using hm
    subst hi2
    have hd : makefileBody.data.drop 1319 = "\n\techo $(NEW_VERSION) > ".data ++
        ("VERSION.txt".data ++
          '\n' :: "\tgit commit -vsam \"Bump version to $(NEW_VERSION)\"".data) := by
      decide
    rw [hd, List.prefix_append_right_inj] at hp
    apply String.ext
    exact eq_of_line_prefix _ _ _ (by decide) (by decide) hp
  · subst h
    exact hw

/-- C10 at the version file names `VERSION.txt` and `version`: the bump-version
rule writes to the first and not to the second. -/
theorem C10_version_file_partly_templated_witness :
    occursIn ("\n\techo $(NEW_VERSION) > " ++ "VERSION.txt" ++ "\n") makefileBody = true ∧
    ¬ (occursIn ("\n\techo $(NEW_VERSION) > " ++ "version" ++ "\n") makefileBody = true) :=
  ⟨(C10_version_file_partly_templated.2.2.2.2.2 "VERSION.txt").mpr rfl,
    fun h => absurd ((C10_version_file_partly_templated.2.2.2.2.2 "version").mp h)
      (by decide)⟩

/-- C11: the templates agree on the version package for every package name `p`.
The rendered MainGo is the import block with the last path written `p/version`,
followed by code that is the same for every config and names exactly
`version.VERSION` and `version.GITCOMMIT`.  The rendered Makefile has the line
`PKG:=p`, and its `VERSION_INFO` line, used by the linker flags, sets
`$(PKG)/version.GITCOMMIT` and `$(PKG)/version.VERSION`.  VersionGo, unchanged
by rendering, is `package version` with exactly the two string variables
`VERSION` and `GITCOMMIT`.  So every identifier of the version package named by
MainGo or by the `-X` flags of the Makefile is declared in VersionGo. -/
theorem C11_version_package_agreement :
    (∀ cfg : RenderConfig,
      renderText cfg MainGo =
        mainGoHead ++ (cfg.PackageName ++ "/version") ++ "\"\n)\n" ++ mainGoCode ∧
      occursIn "version.VERSION" (renderText cfg MainGo) = true ∧
      occursIn "version.GITCOMMIT" (renderText cfg MainGo) = true ∧
      Render "MainGo" cfg =
        if cfg.PackageName.isEmpty then .error .MissingField
        else .ok (renderText cfg MainGo)) ∧
    mainGoHead = "package main\n\nimport (\n\t\"fmt\"\n\t\"log\"\n\t\"net/http\"\n" ++
      "\t\"runtime\"\n\n\t\"" ∧
    countOcc "import" MainGo = 1 ∧
    identsAfter "version." MainGo = ["VERSION", "GITCOMMIT"] ∧
    identsAfter "version." mainGoCode = ["VERSION", "GITCOMMIT"] ∧
    (∀ cfg : RenderConfig,
      renderText cfg Makefile =
        "include docker.mk \nNAME:=" ++ cfg.ApplicationName ++ "\nPKG:=" ++
        cfg.PackageName ++ "\nGOOSARCHES=darwin/amd64\nVERSION_FILE:=" ++
        cfg.VersionFileName ++ makefileBody) ∧
    occursIn ("\nVERSION_INFO=-X $(PKG)/version.GITCOMMIT=$(GITCOMMIT) " ++
      "-X $(PKG)/version.VERSION=$(VERSION)\n") makefileBody = true ∧
    occursIn "\nGO_LDFLAGS=-ldflags \"-w $(VERSION_INFO)\"\n" makefileBody = true ∧
    countOcc "-X " Makefile = 2 ∧
    identsAfter "-X $(PKG)/version." makefileBody = ["GITCOMMIT", "VERSION"] ∧
    identsAfter "version." Makefile = ["GITCOMMIT", "VERSION"] ∧
    VersionGo = "package version\n\n// VERSION indicates the binary version\n" ++
      "var VERSION string\n\n" ++
      "// GITCOMMIT indicates the git hash binary was built off of\n" ++
      "var GITCOMMIT string" ∧
    countOcc "var " VersionGo = 2 ∧
    identsAfter "var " VersionGo = ["VERSION", "GITCOMMIT"] ∧
    (∀ cfg : RenderConfig, renderText cfg VersionGo = VersionGo ∧
      Render "VersionGo" cfg = .ok VersionGo) ∧
    (identsAfter "version." mainGoCode ++
      identsAfter "-X $(PKG)/version." makefileBody).all
        (fun x => (identsAfter "var " VersionGo).contains x) = true := by
  have hmain : ∀ cfg : RenderConfig, renderText cfg MainGo =
      mainGoHead ++ (cfg.PackageName ++ "/version") ++ "\"\n)\n" ++ mainGoCode := by
    intro cfg
    rw [renderText_MainGo]
    apply String.ext
    simp only [String.data_append, List.append_assoc, mainGoBody_split]
  have hv : occursIn "version.VERSION" mainGoCode = true := by decide
  have hg : occursIn "version.GITCOMMIT" mainGoCode = true := by decide
  have hvg : ∀ cfg : RenderConfig, renderText cfg VersionGo = VersionGo :=
    fun cfg => renderText_of_noOpen cfg VersionGo rfl
  refine ⟨fun cfg => ⟨hmain cfg, ?_, ?_, render_MainGo cfg⟩, by decide, by decide, by decide,
    by decide, renderText_Makefile, by decide, by decide, by decide, by decide, by decide,
    by decide, by decide, by decide, fun cfg => ⟨hvg cfg, ?_⟩, by decide⟩
  · rw [hmain]
    exact occursIn_append_left _ _ _ hv
  · rw [hmain]
    exact occursIn_append_left _ _ _ hg
  · rw [Render_of_lookup "VersionGo" VersionGo cfg rfl, missingField_eq, hvg]
    have h1 : occursIn tokApplicationName VersionGo = false := by decide
    have h2 : occursIn tokPackageName VersionGo = false := by decide
    have h3 : occursIn tokVersionFileName VersionGo = false := by decide
    simp [h1, h2, h3]

end Templates
